import Mathlib

/-!
Verification of the face-matching / liveness-verification core of the
Face-Recognition-Biometric attendance system.

The Python source is shallowly embedded:

* `blueprints/api.py` `recognize_face` (the matcher) works on the list of
  Euclidean distances returned by the external `face_recognition` library;
  the embedding therefore takes that distance list (as `List ℚ`) as input.
  `face_recognition.compare_faces(encs, probe, tol)` is documented to return
  the flags `distance i ≤ tol`, computed from the same distances as
  `face_recognition.face_distance`; `compare_faces` below embeds that.
* `utils/face_cache.py` is embedded as explicit state passing: the module
  globals become a `FaceCache` value, `time.time()` becomes an explicit
  `now : ℚ` argument, and the single call to `face_utils.load_known_faces`
  becomes an explicit `store` argument together with a count of how many
  times the persistent store was read.
* `face_utils.py` `load_known_faces` is embedded over abstract database rows
  `(employee_id, blob)`; descriptor bytes are `List Nat` and the numpy
  reinterpretations `np.frombuffer(..., float32/float64)` become the
  constructors of the opaque element type `F32` (the IEEE bit-level values
  are external to the repository, only byte widths and element counts are
  decided by the source).
* `face_utils.py` `detect_liveness` is embedded over frames carrying the
  decoded pixel array (`Option Img`, `none` = `Image.open` raises, caught by
  the inner `try`) and the external face-location oracle result
  (`Option Loc`, `none` = `get_face_location_from_base64` returned `None`).
  `np.std` values are irrational, so every statistic derived from the face
  boxes is carried as the *square* of the source value (its variance):
  a gate `np.std ... < c` becomes `variance < c²`, the gate on
  `max_std - min_std` is decided exactly by `stdSub_lt` (justified against
  `Real.sqrt` by `stdSub_lt_iff`), and the returned confidence
  `min(1.0, max_std/2.0)` is carried as its square
  `confSq = min 1 (max_var/4)`.  All rational statistics (`np.mean`,
  `np.var`, `np.gradient`) are embedded directly.
-/

/- Batteries marks the `Rat` arithmetic operations `@[irreducible]`, which
blocks `decide` on concrete rational computations at elaboration time (the
kernel itself always unfolds them); restore the default reducibility for
this development so concrete witnesses can be checked by evaluation. -/
attribute [local semireducible] Rat.add Rat.mul Rat.sub Rat.inv Rat.ofScientific

namespace FaceRec

/-! ## Python list primitives

`min(list)`, `max(list)`, `min(range(n), key=f)` and `list.index(True)` as
the source uses them.  `pyArgmin` keeps the *first* index attaining the
minimum key, exactly like Python `min` with a key function. -/

/-- Python `min(l)` for a nonempty list (`0` junk value on `[]`, where the
source would raise). -/
def pyListMin [LinearOrder α] [Zero α] : List α → α
  | [] => 0
  | x :: xs => xs.foldl min x

/-- Python `max(l)` for a nonempty list (`0` junk value on `[]`). -/
def pyListMax [LinearOrder α] [Zero α] : List α → α
  | [] => 0
  | x :: xs => xs.foldl max x

/-- Accumulator loop of Python `min(range(n), key=...)`: carries the best
key and its index, replacing them only on a strictly smaller key. -/
def pyArgminGo [LinearOrder α] : List α → α → Nat → Nat → Nat
  | [], _, best, _ => best
  | k :: ks, bestKey, best, i =>
    if k < bestKey then pyArgminGo ks k i (i + 1)
    else pyArgminGo ks bestKey best (i + 1)

/-- Python `min(range(len(keys)), key=lambda i: keys[i])`: first index of the
minimal key (`0` junk value on `[]`, where the source would raise). -/
def pyArgmin [LinearOrder α] : List α → Nat
  | [] => 0
  | k :: ks => pyArgminGo ks k 0 1

/-- Python `matches.index(True)` (length if absent; the source only calls it
when a `True` is present). -/
def pyIndexTrue : List Bool → Nat
  | [] => 0
  | b :: bs => if b then 0 else pyIndexTrue bs + 1

/-! ## `utils/face_cache.py` -/

/-- The module-level `_face_cache` dictionary of `utils/face_cache.py`
(the `threading.Lock` only serializes access and has no sequential
semantics). -/
structure FaceCache where
  employee_ids : List Nat
  known_encodings : List (List ℚ)
  last_updated : ℚ
deriving DecidableEq

/-- `CACHE_TTL = 300` seconds. -/
def CACHE_TTL : ℚ := 300

/-- `get_cached_faces()`: returns the cached pair if the cache is younger
than the TTL *and* non-empty, else `none`; `now` is `time.time()`. -/
def get_cached_faces (c : FaceCache) (now : ℚ) : Option (List Nat × List (List ℚ)) :=
  if now - c.last_updated < CACHE_TTL ∧ 0 < c.known_encodings.length then
    some (c.employee_ids, c.known_encodings)
  else
    none

/-- `update_face_cache(employee_ids, known_encodings)` stamped at `now`. -/
def update_face_cache (ids : List Nat) (encs : List (List ℚ)) (now : ℚ) : FaceCache :=
  ⟨ids, encs, now⟩

/-- `clear_face_cache()`: the state after explicit invalidation. -/
def clear_face_cache : FaceCache :=
  ⟨[], [], 0⟩

/-- One call to `get_cached_or_load_faces()`: result, successor cache state,
and how many times `face_utils.load_known_faces` (the persistent store) was
read during the call.  `store` is what `load_known_faces` would return now. -/
structure LoadOutcome where
  result : List Nat × List (List ℚ)
  state : FaceCache
  store_reads : Nat
deriving DecidableEq

/-- `get_cached_or_load_faces()`: try the cache first; on a miss load from
the store and update the cache only when both returned lists are non-empty
(Python truthiness of `if employee_ids and known_encodings`). -/
def get_cached_or_load_faces (c : FaceCache) (now : ℚ)
    (store : List Nat × List (List ℚ)) : LoadOutcome :=
  match get_cached_faces c now with
  | some r => ⟨r, c, 0⟩
  | none =>
    let c2 := if store.1 ≠ [] ∧ store.2 ≠ [] then update_face_cache store.1 store.2 now else c
    ⟨store, c2, 1⟩

/-! ## The matcher of `blueprints/api.py` `recognize_face` (lines 163-212)

The external library computes `face_distances = face_recognition.face_distance
(known_encodings, face_encoding)` (the Euclidean distances of the probe to
every gallery descriptor); everything after that line is repository code and
is embedded below over that distance list. -/

/-- `face_recognition.compare_faces(known_encodings, face_encoding, tolerance)`:
the library documents it as `list(face_distance(...) <= tolerance)`, flags of
the same distances the endpoint already holds. -/
def compare_faces (distances : List ℚ) (tolerance : ℚ) : List Bool :=
  distances.map (fun d => decide (d ≤ tolerance))

/-- Key list of
`min(range(len(matches)), key=lambda i: face_distances[i] if matches[i] else float('inf'))`;
`⊤` is `float('inf')`. -/
def matchKeys (flags : List Bool) (distances : List ℚ) : List (WithTop ℚ) :=
  List.zipWith (fun m d => if m then (d : WithTop ℚ) else ⊤) flags distances

/-- Lines 173-184: flags at tolerance `0.6`; recomputed at `0.65` when none is
set and `min_distance ≤ 0.65`; recomputed at `0.7` when still none is set and
`min_distance ≤ 0.7`. -/
def selectMatches (distances : List ℚ) : List Bool :=
  let min_distance := pyListMin distances
  let m0 := compare_faces distances (6/10)
  let m1 :=
    if m0.any id = false ∧ min_distance ≤ 65/100 then compare_faces distances (65/100) else m0
  if m1.any id = false ∧ min_distance ≤ 7/10 then compare_faces distances (7/10) else m1

/-- Outcome of the matching block: an accepted gallery index, the
"not recognized" response carrying `(1 - min_distance) * 100`, or the
"no face distances calculated" error path. -/
inductive MatchResult where
  | accept (idx : Nat)
  | noMatch (similarity : ℚ)
  | error
deriving DecidableEq

/-- Lines 164-212 of `recognize_face`, from `face_distances` onwards:
`best_match_index` starts as the argmin of the distances, the layered flags
are computed, and the three outcome paths are taken exactly as in the source
(`any(matches)` / `min_distance > 0.7` / fall-through to the pre-set argmin). -/
def matchDistances (distances : List ℚ) : MatchResult :=
  if distances.length = 0 then MatchResult.error
  else
    let min_distance := pyListMin distances
    let best0 := pyArgmin distances
    let flags := selectMatches distances
    if flags.any id then
      if 1 < (flags.filter (fun b => b)).length then
        MatchResult.accept (pyArgmin (matchKeys flags distances))
      else
        MatchResult.accept (pyIndexTrue flags)
    else if 7/10 < min_distance then
      MatchResult.noMatch ((1 - min_distance) * 100)
    else
      MatchResult.accept best0

/-- The selection of lines 186-193 run against flags computed at one fixed
tolerance: `some` accepted index if any flag is set, else `none`. -/
def matchAtTolerance (distances : List ℚ) (tolerance : ℚ) : Option Nat :=
  let flags := compare_faces distances tolerance
  if flags.any id then
    if 1 < (flags.filter (fun b => b)).length then
      some (pyArgmin (matchKeys flags distances))
    else
      some (pyIndexTrue flags)
  else
    none

/-- `j` is the first index of a minimal element of `l`: exactly what Python
`min(range(len(l)), key=lambda i: l[i])` returns. -/
def MinIdxSpec [LinearOrder α] (l : List α) (j : Nat) : Prop :=
  ∃ hj : j < l.length,
    (∀ m (hm : m < l.length), l.get ⟨j, hj⟩ ≤ l.get ⟨m, hm⟩) ∧
    (∀ m, m < j → ∀ hm : m < l.length, l.get ⟨j, hj⟩ < l.get ⟨m, hm⟩)

/-- `j` is the index the fixed-tolerance selection must return: flagged
(distance ≤ tolerance), of minimal distance among the flagged, and first
among the flagged attaining that distance. -/
def SelSpec (distances : List ℚ) (tolerance : ℚ) (j : Nat) : Prop :=
  ∃ hj : j < distances.length,
    distances.get ⟨j, hj⟩ ≤ tolerance ∧
    (∀ m (hm : m < distances.length), distances.get ⟨m, hm⟩ ≤ tolerance →
      distances.get ⟨j, hj⟩ ≤ distances.get ⟨m, hm⟩) ∧
    (∀ m, m < j → ∀ hm : m < distances.length, distances.get ⟨m, hm⟩ ≤ tolerance →
      distances.get ⟨j, hj⟩ < distances.get ⟨m, hm⟩)

/-! ## `face_utils.py` `load_known_faces` (lines 441-528)

Rows are `(employee_id, face_encoding_bytes)`; descriptor bytes are abstract
`List Nat`.  A float32 (resp. float64) element produced by `np.frombuffer` is
represented opaquely by the byte buffer it was read from together with its
element index; the IEEE values live in numpy, outside the repository, and
nothing in the source inspects them during loading. -/

/-- One float32 descriptor element: read directly from a float32 buffer, or
downcast from the `i`-th float64 of a legacy buffer via `astype(np.float32)`. -/
inductive F32 where
  | raw32 (bytes : List Nat) (i : Nat)
  | down64 (bytes : List Nat) (i : Nat)
deriving DecidableEq

/-- `np.frombuffer(bytes, dtype=np.float32)`: one element per 4 bytes. -/
def frombuffer_f32 (bytes : List Nat) : List F32 :=
  (List.range (bytes.length / 4)).map (F32.raw32 bytes)

/-- `np.frombuffer(bytes, dtype=np.float64).astype(np.float32)`: one element
per 8 bytes, each downcast. -/
def frombuffer_f64_to_f32 (bytes : List Nat) : List F32 :=
  (List.range (bytes.length / 8)).map (F32.down64 bytes)

/-- Lines 471-499: empty blob → skip; size 512 → float32; size 1024 →
float64 downcast; otherwise the two guess branches (divisible by 8 resp. 4
with exactly 128 elements) and the final skip. -/
def decode_blob (bytes : List Nat) : Option (List F32) :=
  if bytes = [] then none
  else if bytes.length = 512 then some (frombuffer_f32 bytes)
  else if bytes.length = 1024 then some (frombuffer_f64_to_f32 bytes)
  else if bytes.length % 8 = 0 ∧ bytes.length / 8 = 128 then some (frombuffer_f64_to_f32 bytes)
  else if bytes.length % 4 = 0 ∧ bytes.length / 4 = 128 then some (frombuffer_f32 bytes)
  else none

/-- One row of the loading loop: decode, then the shape check of lines
501-504 (`encoding.shape[0] != 128` → skip). -/
def load_one (bytes : List Nat) : Option (List F32) :=
  match decode_blob bytes with
  | none => none
  | some enc => if enc.length ≠ 128 then none else some enc

/-- `load_known_faces` over the fetched rows: ids and encodings accumulated
in row order, skipped rows contributing nothing. -/
def load_known_faces : List (Nat × List Nat) → List Nat × List (List F32)
  | [] => ([], [])
  | (eid, bytes) :: rest =>
    let acc := load_known_faces rest
    match load_one bytes with
    | some enc => (eid :: acc.1, enc :: acc.2)
    | none => acc

/-! ## `face_utils.py` `encode_face_from_base64` (lines 37-88)

The input carries the outcome of the external decode / detection /embedding
calls: `decoded = none` models `base64.b64decode` / `Image.open` /
`np.array` raising (undecodable payload), and the oracle lists are what
`face_recognition.face_locations` (hog and cnn profiles) and
`face_recognition.face_encodings` return on the normalized RGB image.
The result type has an error channel so that the spec's claimed fatal-error
propagation is expressible; the source's `except Exception: return None`
(lines 86-88) means the embedded function in fact never uses it. -/

/-- A 128-dimensional face descriptor produced by the external embedding. -/
abbrev Desc := List ℚ

/-- A face bounding box `(top, right, bottom, left)`. -/
structure Loc where
  top : ℚ
  right : ℚ
  bottom : ℚ
  left : ℚ
deriving DecidableEq

/-- External-oracle outcomes for one decodable base64 image. -/
structure DecodedImage where
  hogLocations : List Loc
  cnnLocations : List Loc
  encodings : List Desc
deriving DecidableEq

/-- A base64 image payload: `none` if decoding raises. -/
structure B64Input where
  decoded : Option DecodedImage
deriving DecidableEq

/-- The `return None` sentinel shared by every non-raising exit of
`encode_face_from_base64` that found no usable face. -/
def no_face_result : Except String (Option Desc) :=
  Except.ok none

/-- `encode_face_from_base64`: decode (errors caught → `None`), try hog
locations then cnn locations, `None` on zero regions or zero encodings,
else the first encoding. -/
def encode_face_from_base64 (inp : B64Input) : Except String (Option Desc) :=
  match inp.decoded with
  | none => no_face_result
  | some img =>
    let locations := if img.hogLocations.isEmpty then img.cnnLocations else img.hogLocations
    if locations.isEmpty then no_face_result
    else
      match img.encodings with
      | [] => no_face_result
      | e :: _ => Except.ok (some e)

/-! ## The `/api/recognize-face` endpoint (`blueprints/api.py` lines 133-212)

Embedded up to identity resolution (the attendance bookkeeping that follows
is out of the claimed scope).  `livenessCalls` counts invocations of
`detect_liveness` during the request; the source contains no such call on
any path. -/

/-- One recognition request: the posted image (`none` = missing/empty
`"image"` field) and the external-library outputs for it against the loaded
gallery (`galleryIds` from `load_known_faces`, `distances` from
`face_recognition.face_distance`). -/
structure RecognizeRequest where
  image : Option B64Input
  galleryIds : List Nat
  distances : List ℚ
deriving DecidableEq

/-- Observable outcome of the endpoint before attendance recording. -/
inductive ApiOutcome where
  | noImage
  | noFace
  | noEmployees
  | accepted (employeeId : Nat)
  | rejected (similarity : ℚ)
  | processingError
deriving DecidableEq

/-- Endpoint result plus how many times the liveness verifier ran. -/
structure ApiResult where
  outcome : ApiOutcome
  livenessCalls : Nat
deriving DecidableEq

/-- `recognize_face` of `blueprints/api.py`: no-image guard, descriptor
extraction, gallery emptiness guard, then the distance-based matcher.
No path invokes `detect_liveness`. -/
def recognize_face (req : RecognizeRequest) : ApiResult :=
  match req.image with
  | none => ⟨ApiOutcome.noImage, 0⟩
  | some img =>
    match encode_face_from_base64 img with
    | Except.error _ => ⟨ApiOutcome.processingError, 0⟩
    | Except.ok none => ⟨ApiOutcome.noFace, 0⟩
    | Except.ok (some _) =>
      if req.galleryIds.isEmpty then ⟨ApiOutcome.noEmployees, 0⟩
      else
        match matchDistances req.distances with
        | MatchResult.accept idx => ⟨ApiOutcome.accepted (req.galleryIds.getD idx 0), 0⟩
        | MatchResult.noMatch s => ⟨ApiOutcome.rejected s, 0⟩
        | MatchResult.error => ⟨ApiOutcome.processingError, 0⟩

/-! ## `face_utils.py` `detect_liveness` (lines 127-389)

Pixel arrays are rationals; `Img.gray` is a 2-D `np.array(img)` (PIL mode L),
`Img.rgb` a 3-D one (rows × pixels × channels).  numpy exceptions inside the
pixel-check `try` of lines 147-244 are the `PhaseOut.error` outcome (the
source logs and falls through to the face-location checks); `np.abs(a - b)`
on arrays of different shapes is modeled as such an error (broadcasting of
unequal image shapes is not distinguished).  Face-box statistics appear as
variances (squares of the source's `np.std` values) as explained at the top
of this file. -/

/-- A 2-D pixel array. -/
abbrev Mat2 := List (List ℚ)

/-- A decoded frame: grayscale (2-D) or color (3-D, rows of pixels of
channels). -/
inductive Img where
  | gray (px : Mat2)
  | rgb (px : List (List (List ℚ)))
deriving DecidableEq

/-- One burst frame: the decoded pixel array (`none` = `Image.open` raises)
and the external face-location oracle's answer for it
(`get_face_location_from_base64`, which catches its own errors). -/
structure Frame where
  img : Option Img
  location : Option Loc
deriving DecidableEq

/-- `np.mean` of a flat list (`0` junk on `[]`, where numpy warns and
returns NaN; every use below is guarded nonempty as in the source). -/
def npMean (l : List ℚ) : ℚ :=
  l.sum / (l.length : ℚ)

/-- `np.var` (population variance) of a flat list. -/
def npVar (l : List ℚ) : ℚ :=
  npMean (l.map (fun x => (x - npMean l) ^ 2))

/-- Row lengths, the shape data relevant to elementwise 2-D ops. -/
def shape2 (m : Mat2) : List Nat :=
  m.map List.length

/-- Shape data of a 3-D array. -/
def shape3 (m : List (List (List ℚ))) : List (List Nat) :=
  m.map (fun r => r.map List.length)

/-- Elementwise combination of two 2-D arrays. -/
def zipWith2 (f : ℚ → ℚ → ℚ) (a b : Mat2) : Mat2 :=
  List.zipWith (List.zipWith f) a b

/-- Elementwise combination of two 3-D arrays. -/
def zipWith3 (f : ℚ → ℚ → ℚ) (a b : List (List (List ℚ))) : List (List (List ℚ)) :=
  List.zipWith (fun r s => List.zipWith (List.zipWith f) r s) a b

/-- `np.mean(np.abs(a.astype(float) - b.astype(float)))`; `none` models the
numpy exception on incompatible shapes. -/
def meanAbsDiff : Img → Img → Option ℚ
  | Img.gray a, Img.gray b =>
    if shape2 a = shape2 b then some (npMean ((zipWith2 (fun x y => |x - y|) a b).flatten))
    else none
  | Img.rgb a, Img.rgb b =>
    if shape3 a = shape3 b then
      some (npMean (((zipWith3 (fun x y => |x - y|) a b).map List.flatten).flatten))
    else none
  | _, _ => none

/-- The double loop of lines 157-160: some two frames are
`np.array_equal`. -/
def hasDupPair [DecidableEq α] : List α → Bool
  | [] => false
  | x :: rest => rest.any (fun y => decide (y = x)) || hasDupPair rest

/-- `[f l[i] l[i+1] for i in range(len(l) - 1)]`. -/
def consecPairs (f : α → α → β) : List α → List β
  | a :: b :: rest => f a b :: consecPairs f (b :: rest)
  | _ => []

/-- Mean brightness of a frame; the loop of lines 201-209 only collects it
for 3-D images. -/
def brightnessOf : Img → Option ℚ
  | Img.gray _ => none
  | Img.rgb m => some (npMean m.flatten.flatten)

/-- `np.mean(np.var(img, axis=(0,1)))`: per-channel variance over all
pixels, averaged over channels; only collected for 3-D images. -/
def colorVarOf : Img → Option ℚ
  | Img.gray _ => none
  | Img.rgb m => some (npMean ((m.flatten.transpose).map npVar))

/-- `np.mean(img, axis=2)` for 3-D frames, identity for 2-D ones. -/
def toGray : Img → Mat2
  | Img.gray m => m
  | Img.rgb m => m.map (fun row => row.map npMean)

/-- `np.gradient` of one line: one-sided differences at the ends, central
differences inside (defined for length ≥ 2, the caller checks). -/
def grad1 (l : List ℚ) : List ℚ :=
  (List.range l.length).map (fun i =>
    if i = 0 then l.getD 1 0 - l.getD 0 0
    else if i = l.length - 1 then l.getD (l.length - 1) 0 - l.getD (l.length - 2) 0
    else (l.getD (i + 1) 0 - l.getD (i - 1) 0) / 2)

/-- `np.gradient(gray, axis=1)`; `none` models the numpy exception when the
axis has fewer than 2 samples. -/
def gradAxis1 (m : Mat2) : Option Mat2 :=
  if m.all (fun r => 2 ≤ r.length) then some (m.map grad1) else none

/-- `np.gradient(gray, axis=0)`. -/
def gradAxis0 (m : Mat2) : Option Mat2 :=
  if 2 ≤ m.length then some ((m.transpose.map grad1).transpose) else none

/-- Lines 227-236: `np.mean(np.abs(grad_x) + np.abs(grad_y))` of the
grayscale image. -/
def edgeStrengthOf (img : Img) : Option ℚ :=
  let gray := toGray img
  match gradAxis1 gray, gradAxis0 gray with
  | some gx, some gy => some (npMean ((zipWith2 (fun a b => |a| + |b|) gx gy).flatten))
  | _, _ => none

/-- Outcome of the pixel-level `try` block: a specific failure return, a
clean pass, or a swallowed exception (`except` of line 244, which continues
with the remaining checks). -/
inductive PhaseOut where
  | fail (reason : String)
  | pass
  | error
deriving DecidableEq

def identicalFramesMsg : String :=
  "Liveness check failed: Identical frames detected. Photos and pictures cannot be used. Only real faces are allowed."

def tooSimilarMsg : String :=
  "Liveness check failed: Frames too similar. Photos and pictures cannot be used. Please use a real face and move naturally."

def uniformDiffMsg : String :=
  "Liveness check failed: Uniform frame differences detected. Photos and pictures cannot be used. Only real faces are allowed."

def insufficientVariationMsg : String :=
  "Liveness check failed: Insufficient frame-to-frame variation. Photos and pictures cannot be used. Please move naturally."

def uniformBrightnessMsg : String :=
  "Liveness check failed: Uniform brightness detected. Photos and pictures cannot be used. Only real faces are allowed."

def insufficientColorMsg : String :=
  "Liveness check failed: Insufficient color variation. Photos and pictures cannot be used. Please use a real face."

def staticImageMsg : String :=
  "Liveness check failed: Static image pattern detected. Photos and pictures cannot be used. Please use a real face."

def needFramesMsg : String :=
  "Need at least 5 frames for liveness detection"

def frameMissMsg (i : Nat) : String :=
  "Face not detected in frame " ++ toString i ++ ". Please ensure your face is clearly visible in the camera."

def notEnoughFramesMsg (k n : Nat) : String :=
  "Face not detected in enough frames. Only detected in " ++ toString k ++ " out of " ++ toString n ++ " frames."

def noMovementMsg : String :=
  "Liveness check failed: No movement detected. Photos and pictures cannot be used. Please use a real face and move slightly or blink."

def uniformMovementMsg : String :=
  "Liveness check failed: Uniform movement pattern detected. Photos and pictures cannot be used. Please move naturally."

def insufficientMovementMsg : String :=
  "Liveness check failed: Insufficient movement between frames. Photos and pictures cannot be used. Please move naturally."

def tooConsistentMsg : String :=
  "Liveness check failed: Too consistent face detection. Photos and pictures cannot be used. Please move naturally."

def sizeConsistentMsg : String :=
  "Liveness check failed: Face size too consistent. Photos and pictures cannot be used. Please move naturally."

def artificialMovementMsg : String :=
  "Liveness check failed: Artificial movement pattern detected. Photos and pictures cannot be used. Please use a real face."

def livenessOkMsg : String :=
  "Liveness detected successfully"

/-- Edge-variance block, lines 223-242 (last part of the pixel `try`). -/
def pixelPhaseEdges (imgs : List Img) : PhaseOut :=
  if 3 ≤ imgs.length then
    match imgs.mapM edgeStrengthOf with
    | none => PhaseOut.error
    | some edge_variance_values =>
      if edge_variance_values ≠ [] ∧ npVar edge_variance_values < 1 then
        PhaseOut.fail staticImageMsg
      else PhaseOut.pass
  else PhaseOut.pass

/-- Brightness/color block, lines 195-221. -/
def pixelPhaseColor (imgs : List Img) : PhaseOut :=
  if 3 ≤ imgs.length then
    let brightness_values := imgs.filterMap brightnessOf
    let color_variance_values := imgs.filterMap colorVarOf
    if brightness_values ≠ [] ∧ npVar brightness_values < 1 then
      PhaseOut.fail uniformBrightnessMsg
    else if color_variance_values ≠ [] ∧
        pyListMax color_variance_values - pyListMin color_variance_values < 2 then
      PhaseOut.fail insufficientColorMsg
    else pixelPhaseEdges imgs
  else pixelPhaseEdges imgs

/-- The pixel-level gates of lines 147-244, over the decoded frames:
identical-pair check, minimum consecutive difference, difference
variance/mean, then brightness/color and edge blocks. -/
def pixelPhase (imgs : List Img) : PhaseOut :=
  if hasDupPair imgs then PhaseOut.fail identicalFramesMsg
  else
    match (consecPairs meanAbsDiff imgs).mapM id with
    | none => PhaseOut.error
    | some diff_values =>
      if pyListMin diff_values < 2 then PhaseOut.fail tooSimilarMsg
      else if 3 ≤ imgs.length then
        if npVar diff_values < 1 then PhaseOut.fail uniformDiffMsg
        else if npMean diff_values < 1 then PhaseOut.fail insufficientVariationMsg
        else pixelPhaseColor imgs
      else pixelPhaseColor imgs

/-- The face-location loop of lines 248-259: collect detected boxes in
order; on a miss, fail with the frame-specific message whenever fewer than
3 boxes have been collected *so far* (`if len(face_locations) < 3` inside
the loop). -/
def collectLocs : List Frame → Nat → List Loc → Except Nat (List Loc)
  | [], _, acc => Except.ok acc
  | f :: rest, i, acc =>
    match f.location with
    | some loc => collectLocs rest (i + 1) (acc ++ [loc])
    | none =>
      if acc.length < 3 then Except.error (i + 1)
      else collectLocs rest (i + 1) acc

/-- `detect_liveness` result; `confSq` is the square of the returned
confidence (`0` on every failure path, `min 1 (max_variance/4)` on
success, i.e. the square of `min(1.0, max_std/2.0)`). -/
structure LivenessResult where
  is_live : Bool
  confSq : ℚ
  reason : String
deriving DecidableEq

/-- Exact rational decision of `Real.sqrt a - Real.sqrt b < c` for
`0 ≤ b ≤ a`, `0 < c` (see `stdSub_lt_iff`); used for the
`max_variance - min_variance < 0.05` gate on standard deviations. -/
def stdSub_lt (a b c : ℚ) : Bool :=
  decide (a - b - c ^ 2 < 0) || decide ((a - b - c ^ 2) ^ 2 < 4 * c ^ 2 * b)

/-- The six squared deviations of lines 274-283/299 in the source's order
`[top, left, right, bottom, height, width]` (variances, i.e. squares of the
`np.std` values the source stores). -/
def sixVariances (locs : List Loc) : List ℚ :=
  [npVar (locs.map Loc.top), npVar (locs.map Loc.left), npVar (locs.map Loc.right),
   npVar (locs.map Loc.bottom), npVar (locs.map (fun l => l.bottom - l.top)),
   npVar (locs.map (fun l => l.right - l.left))]

/-- Lines 323-328 / 366-371: summed absolute coordinate deltas between
consecutive detected boxes. -/
def frameMovements (locs : List Loc) : List ℚ :=
  consecPairs
    (fun a b => |a.top - b.top| + |a.right - b.right| + |a.bottom - b.bottom| + |a.left - b.left|)
    locs

/-- The movement gates of lines 266-385 over the collected face boxes:
no-movement, std-range uniformity, consecutive-movement variance/mean,
box-area variance/range, acceleration variance, then the success return. -/
def movementGates (locs : List Loc) : LivenessResult :=
  let vars := sixVariances locs
  let max_variance := pyListMax vars
  let min_variance := pyListMin vars
  if max_variance < 1/25 then ⟨false, 0, noMovementMsg⟩
  else
    let confSq := min 1 (max_variance / 4)
    if stdSub_lt max_variance min_variance (1/20) then ⟨false, 0, uniformMovementMsg⟩
    else
      let movements := frameMovements locs
      if 2 ≤ movements.length ∧ npVar movements < 1/10 then ⟨false, 0, uniformMovementMsg⟩
      else if 2 ≤ movements.length ∧ npMean movements < 1/2 then
        ⟨false, 0, insufficientMovementMsg⟩
      else
        let areas := locs.map (fun l => (l.bottom - l.top) * (l.right - l.left))
        if npVar areas < 1 then ⟨false, 0, tooConsistentMsg⟩
        else if pyListMax areas - pyListMin areas < 1/2 then ⟨false, 0, sizeConsistentMsg⟩
        else if 4 ≤ locs.length ∧ 2 ≤ movements.length ∧
            npVar (consecPairs (fun a b => b - a) movements) < 1/10 then
          ⟨false, 0, artificialMovementMsg⟩
        else ⟨true, confSq, livenessOkMsg⟩

/-- Lines 248-385: location collection (with its early exits), the
not-enough-frames check, then the movement gates. -/
def locationPhase (frames : List Frame) : LivenessResult :=
  match collectLocs frames 0 [] with
  | Except.error i => ⟨false, 0, frameMissMsg i⟩
  | Except.ok locs =>
    if locs.length < 3 then ⟨false, 0, notEnoughFramesMsg locs.length frames.length⟩
    else movementGates locs

/-- The decode loop of lines 149-154 (`none` = some frame raises during
decoding, caught by the pixel-phase `except`). -/
def decodeAll (frames : List Frame) : Option (List Img) :=
  frames.mapM Frame.img

/-- `detect_liveness`: frame-count precondition, pixel-level gates (whose
swallowed exceptions continue), then the face-location phase. -/
def detect_liveness (frames : List Frame) : LivenessResult :=
  if frames.length < 5 then ⟨false, 0, needFramesMsg⟩
  else
    match (match decodeAll frames with
           | none => PhaseOut.error
           | some imgs => pixelPhase imgs) with
    | PhaseOut.fail reason => ⟨false, 0, reason⟩
    | _ => locationPhase frames

/-- The `max_variance` statistic (as a variance, i.e. squared) that the
success branch normalizes into the confidence. -/
def maxPosVariance (frames : List Frame) : ℚ :=
  match collectLocs frames 0 [] with
  | Except.ok locs => pyListMax (sixVariances locs)
  | Except.error _ => 0

/-! ## Concrete inputs used by witnesses and counterexamples -/

/-- A small grayscale frame `[[0, x], [0, x]]`. -/
def liveImg (x : ℚ) : Img :=
  Img.gray [[0, x], [0, x]]

/-- Five naturally-jittering face boxes. -/
def liveLocs : List Loc :=
  [⟨10, 30, 40, 8⟩, ⟨11, 33, 41, 9⟩, ⟨9, 30, 44, 8⟩, ⟨13, 35, 40, 10⟩, ⟨10, 31, 46, 9⟩]

/-- A burst that passes every liveness gate. -/
def liveFrames : List Frame :=
  [⟨some (liveImg 0), liveLocs.get? 0⟩, ⟨some (liveImg 4), liveLocs.get? 1⟩,
   ⟨some (liveImg 8), liveLocs.get? 2⟩, ⟨some (liveImg 16), liveLocs.get? 3⟩,
   ⟨some (liveImg 32), liveLocs.get? 4⟩]

/-- The same burst except that no face is detected in frame 1; frames 2-5
still yield 4 detected boxes. -/
def missFirstFrames : List Frame :=
  [⟨some (liveImg 0), none⟩, ⟨some (liveImg 4), liveLocs.get? 1⟩,
   ⟨some (liveImg 8), liveLocs.get? 2⟩, ⟨some (liveImg 16), liveLocs.get? 3⟩,
   ⟨some (liveImg 32), liveLocs.get? 4⟩]

/-- Only four frames. -/
def fourFrames : List Frame :=
  [⟨some (liveImg 0), liveLocs.get? 0⟩, ⟨some (liveImg 4), liveLocs.get? 1⟩,
   ⟨some (liveImg 8), liveLocs.get? 2⟩, ⟨some (liveImg 16), liveLocs.get? 3⟩]

/-- An undecodable base64 payload. -/
def undecodableInput : B64Input :=
  ⟨none⟩

/-- A decodable image with zero detected face regions. -/
def noFaceInput : B64Input :=
  ⟨some ⟨[], [], []⟩⟩

/-- A decodable image with one hog-detected face and one encoding. -/
def okImage : B64Input :=
  ⟨some ⟨[⟨0, 10, 10, 0⟩], [], [[1]]⟩⟩

/-- A request whose probe is within 0.1 of the single enrolled identity. -/
def acceptedRequest : RecognizeRequest :=
  ⟨some okImage, [7], [1/10]⟩

end FaceRec

namespace FaceRec

/-! ## Lemmas about the Python list primitives -/

theorem foldl_min_le_acc [LinearOrder α] :
    ∀ (l : List α) (a : α), l.foldl min a ≤ a := by
  intro l
  induction l with
  | nil => intro a; exact le_refl a
  | cons x xs ih =>
    intro a
    calc (x :: xs).foldl min a = xs.foldl min (min a x) := rfl
    _ ≤ min a x := ih (min a x)
    _ ≤ a := min_le_left a x

theorem foldl_min_le_mem [LinearOrder α] :
    ∀ (l : List α) (a x : α), x ∈ l → l.foldl min a ≤ x := by
  intro l
  induction l with
  | nil => intro a x hx; cases hx
  | cons y ys ih =>
    intro a x hx
    rcases List.mem_cons.mp hx with h | h
    · subst h
      calc (x :: ys).foldl min a = ys.foldl min (min a x) := rfl
      _ ≤ min a x := foldl_min_le_acc ys (min a x)
      _ ≤ x := min_le_right a x
    · exact ih (min a y) x h

theorem foldl_min_mem_or [LinearOrder α] :
    ∀ (l : List α) (a : α), l.foldl min a = a ∨ l.foldl min a ∈ l := by
  intro l
  induction l with
  | nil => intro a; exact Or.inl rfl
  | cons x xs ih =>
    intro a
    have h := ih (min a x)
    rcases h with h | h
    · rcases min_cases a x with ⟨hm, _⟩ | ⟨hm, _⟩
      · exact Or.inl (by simpa [hm] using h)
      · refine Or.inr ?_
        rw [List.foldl_cons, h, hm]
        exact List.mem_cons_self x xs
    · exact Or.inr (List.mem_cons_of_mem x h)

theorem pyListMin_le [LinearOrder α] [Zero α] {l : List α} {x : α} (hx : x ∈ l) :
    pyListMin l ≤ x := by
  cases l with
  | nil => cases hx
  | cons y ys =>
    rcases List.mem_cons.mp hx with h | h
    · subst h; exact foldl_min_le_acc ys x
    · exact foldl_min_le_mem ys y x h

theorem pyListMin_mem [LinearOrder α] [Zero α] {l : List α} (hl : l ≠ []) :
    pyListMin l ∈ l := by
  cases l with
  | nil => exact absurd rfl hl
  | cons y ys =>
    rcases foldl_min_mem_or ys y with h | h
    · rw [pyListMin, h]; exact List.mem_cons_self y ys
    · exact List.mem_cons_of_mem y h

theorem foldl_max_acc_le [LinearOrder α] :
    ∀ (l : List α) (a : α), a ≤ l.foldl max a := by
  intro l
  induction l with
  | nil => intro a; exact le_refl a
  | cons x xs ih =>
    intro a
    calc a ≤ max a x := le_max_left a x
    _ ≤ xs.foldl max (max a x) := ih (max a x)
    _ = (x :: xs).foldl max a := rfl

theorem foldl_max_mem_le [LinearOrder α] :
    ∀ (l : List α) (a x : α), x ∈ l → x ≤ l.foldl max a := by
  intro l
  induction l with
  | nil => intro a x hx; cases hx
  | cons y ys ih =>
    intro a x hx
    rcases List.mem_cons.mp hx with h | h
    · subst h
      calc x ≤ max a x := le_max_right a x
      _ ≤ ys.foldl max (max a x) := foldl_max_acc_le ys (max a x)
      _ = (x :: ys).foldl max a := rfl
    · exact ih (max a y) x h

theorem le_pyListMax [LinearOrder α] [Zero α] {l : List α} {x : α} (hx : x ∈ l) :
    x ≤ pyListMax l := by
  cases l with
  | nil => cases hx
  | cons y ys =>
    rcases List.mem_cons.mp hx with h | h
    · subst h; exact foldl_max_acc_le ys x
    · exact foldl_max_mem_le ys y x h

theorem minIdxSpec_unique [LinearOrder α] {l : List α} {j k : Nat}
    (hj : MinIdxSpec l j) (hk : MinIdxSpec l k) : j = k := by
  obtain ⟨hjl, hjmin, hjstrict⟩ := hj
  obtain ⟨hkl, hkmin, hkstrict⟩ := hk
  rcases lt_trichotomy j k with h | h | h
  · exact absurd (hjmin k hkl) (not_le_of_lt (hkstrict j h hjl))
  · exact h
  · exact absurd (hkmin j hjl) (not_le_of_lt (hjstrict k h hkl))

theorem pyArgminGo_spec [LinearOrder α] :
    ∀ (l : List α) (bk : α) (b i : Nat),
      (pyArgminGo l bk b i = b ∧ ∀ x ∈ l, bk ≤ x) ∨
      (∃ j, ∃ hj : j < l.length,
        pyArgminGo l bk b i = i + j ∧
        l.get ⟨j, hj⟩ < bk ∧
        (∀ m (hm : m < l.length), l.get ⟨j, hj⟩ ≤ l.get ⟨m, hm⟩) ∧
        (∀ m, m < j → ∀ hm : m < l.length, l.get ⟨j, hj⟩ < l.get ⟨m, hm⟩)) := by
  intro l
  induction l with
  | nil =>
    intro bk b i
    exact Or.inl ⟨rfl, by intro x hx; cases hx⟩
  | cons k ks ih =>
    intro bk b i
    by_cases hk : k < bk
    · rw [show pyArgminGo (k :: ks) bk b i = pyArgminGo ks k i (i + 1) from by
        simp [pyArgminGo, hk]]
      rcases ih k i (i + 1) with ⟨heq, hall⟩ | ⟨j, hj, heq, hlt, hmin, hstrict⟩
      · refine Or.inr ⟨0, Nat.succ_pos _, by simpa using heq, hk, ?_, ?_⟩
        · intro m hm
          cases m with
          | zero => exact le_refl _
          | succ m' =>
            show k ≤ ks.get ⟨m', _⟩
            exact hall _ (ks.get_mem m' (Nat.lt_of_succ_lt_succ hm))
        · intro m hm; cases hm
      · refine Or.inr ⟨j + 1, Nat.succ_lt_succ hj, ?_, ?_, ?_, ?_⟩
        · rw [heq]; omega
        · show ks.get ⟨j, hj⟩ < bk
          exact lt_trans hlt hk
        · intro m hm
          cases m with
          | zero => exact le_of_lt hlt
          | succ m' => exact hmin m' (Nat.lt_of_succ_lt_succ hm)
        · intro m hmj hm
          cases m with
          | zero => exact hlt
          | succ m' => exact hstrict m' (Nat.lt_of_succ_lt_succ hmj) (Nat.lt_of_succ_lt_succ hm)
    · rw [show pyArgminGo (k :: ks) bk b i = pyArgminGo ks bk b (i + 1) from by
        simp [pyArgminGo, hk]]
      have hbk : bk ≤ k := le_of_not_lt hk
      rcases ih bk b (i + 1) with ⟨heq, hall⟩ | ⟨j, hj, heq, hlt, hmin, hstrict⟩
      · refine Or.inl ⟨heq, ?_⟩
        intro x hx
        rcases List.mem_cons.mp hx with h | h
        · subst h; exact hbk
        · exact hall x h
      · refine Or.inr ⟨j + 1, Nat.succ_lt_succ hj, ?_, ?_, ?_, ?_⟩
        · rw [heq]; omega
        · show ks.get ⟨j, hj⟩ < bk
          exact hlt
        · intro m hm
          cases m with
          | zero => exact le_of_lt (lt_of_lt_of_le hlt hbk)
          | succ m' => exact hmin m' (Nat.lt_of_succ_lt_succ hm)
        · intro m hmj hm
          cases m with
          | zero => exact lt_of_lt_of_le hlt hbk
          | succ m' => exact hstrict m' (Nat.lt_of_succ_lt_succ hmj) (Nat.lt_of_succ_lt_succ hm)

theorem pyArgmin_spec [LinearOrder α] {l : List α} (hl : l ≠ []) :
    MinIdxSpec l (pyArgmin l) := by
  cases l with
  | nil => exact absurd rfl hl
  | cons k ks =>
    have hpy : pyArgmin (k :: ks) = pyArgminGo ks k 0 1 := rfl
    rcases pyArgminGo_spec ks k 0 1 with ⟨heq, hall⟩ | ⟨j, hj, heq, hlt, hmin, hstrict⟩
    · have h0 : pyArgmin (k :: ks) = 0 := by rw [hpy, heq]
      rw [h0]
      refine ⟨Nat.succ_pos _, ?_, ?_⟩
      · intro m hm
        cases m with
        | zero => exact le_refl _
        | succ m' =>
          show k ≤ ks.get ⟨m', Nat.lt_of_succ_lt_succ hm⟩
          exact hall _ (ks.get_mem m' (Nat.lt_of_succ_lt_succ hm))
      · intro m hm0
        exact absurd hm0 (Nat.not_lt_zero m)
    · have h1 : pyArgmin (k :: ks) = j + 1 := by rw [hpy, heq]; omega
      rw [h1]
      refine ⟨Nat.succ_lt_succ hj, ?_, ?_⟩
      · intro m hm
        cases m with
        | zero => exact le_of_lt hlt
        | succ m' => exact hmin m' (Nat.lt_of_succ_lt_succ hm)
      · intro m hm0 hm
        cases m with
        | zero => exact hlt
        | succ m' => exact hstrict m' (Nat.lt_of_succ_lt_succ hm0) (Nat.lt_of_succ_lt_succ hm)

theorem pyIndexTrue_spec :
    ∀ (l : List Bool), l.any id = true →
      ∃ h : pyIndexTrue l < l.length,
        l.get ⟨pyIndexTrue l, h⟩ = true ∧
        ∀ m, m < pyIndexTrue l → ∀ hm : m < l.length, l.get ⟨m, hm⟩ = false := by
  intro l
  induction l with
  | nil => intro h; simp at h
  | cons b bs ih =>
    intro h
    cases b with
    | true =>
      refine ⟨Nat.succ_pos _, rfl, ?_⟩
      intro m hm
      rw [show pyIndexTrue (true :: bs) = 0 from rfl] at hm
      exact absurd hm (Nat.not_lt_zero m)
    | false =>
      have hbs : bs.any id = true := by simpa using h
      obtain ⟨hlt, hget, hbefore⟩ := ih hbs
      have hidx : pyIndexTrue (false :: bs) = pyIndexTrue bs + 1 := rfl
      rw [hidx]
      refine ⟨Nat.succ_lt_succ hlt, hget, ?_⟩
      intro m hm hm'
      cases m with
      | zero => rfl
      | succ m' => exact hbefore m' (Nat.lt_of_succ_lt_succ hm) (Nat.lt_of_succ_lt_succ hm')

theorem no_true_of_filter_nil :
    ∀ (l : List Bool), (l.filter (fun b => b)).length = 0 →
      ∀ m (hm : m < l.length), l.get ⟨m, hm⟩ = false := by
  intro l
  induction l with
  | nil => intro _ m hm; exact absurd hm (Nat.not_lt_zero m)
  | cons b bs ih =>
    intro h m hm
    cases b with
    | true => simp [List.filter] at h
    | false =>
      have h' : (bs.filter (fun b => b)).length = 0 := by simpa [List.filter] using h
      cases m with
      | zero => rfl
      | succ m' => exact ih h' m' (Nat.lt_of_succ_lt_succ hm)

theorem true_unique_of_filter_le_one :
    ∀ (l : List Bool), (l.filter (fun b => b)).length ≤ 1 →
      ∀ j k (hj : j < l.length) (hk : k < l.length),
        l.get ⟨j, hj⟩ = true → l.get ⟨k, hk⟩ = true → j = k := by
  intro l
  induction l with
  | nil => intro _ j k hj _ _ _; exact absurd hj (Nat.not_lt_zero j)
  | cons b bs ih =>
    intro h j k hj hk hgj hgk
    cases b with
    | true =>
      have h0 : (bs.filter (fun b => b)).length = 0 := by
        rw [List.filter_cons_of_pos (by simp)] at h
        simp only [List.length_cons] at h
        omega
      cases j with
      | zero =>
        cases k with
        | zero => rfl
        | succ k' =>
          have hfalse : bs.get ⟨k', Nat.lt_of_succ_lt_succ hk⟩ = false :=
            no_true_of_filter_nil bs h0 k' (Nat.lt_of_succ_lt_succ hk)
          exact absurd (show bs.get ⟨k', Nat.lt_of_succ_lt_succ hk⟩ = true from hgk)
            (by rw [hfalse]; simp)
      | succ j' =>
        have hfalse : bs.get ⟨j', Nat.lt_of_succ_lt_succ hj⟩ = false :=
          no_true_of_filter_nil bs h0 j' (Nat.lt_of_succ_lt_succ hj)
        exact absurd (show bs.get ⟨j', Nat.lt_of_succ_lt_succ hj⟩ = true from hgj)
          (by rw [hfalse]; simp)
    | false =>
      have h' : (bs.filter (fun b => b)).length ≤ 1 := by simpa [List.filter] using h
      cases j with
      | zero => exact absurd hgj (by simp)
      | succ j' =>
        cases k with
        | zero => exact absurd hgk (by simp)
        | succ k' =>
          exact congrArg Nat.succ
            (ih h' j' k' (Nat.lt_of_succ_lt_succ hj) (Nat.lt_of_succ_lt_succ hk) hgj hgk)

theorem any_of_filter_pos :
    ∀ (l : List Bool), 0 < (l.filter (fun b => b)).length → l.any id = true := by
  intro l
  induction l with
  | nil => intro h; simp at h
  | cons b bs ih =>
    intro h
    cases b with
    | true => simp
    | false =>
      have h' : 0 < (bs.filter (fun b => b)).length := by simpa [List.filter] using h
      simpa using ih h'

/-! ## Lemmas about `compare_faces`, `matchKeys` and `selectMatches` -/

theorem compare_faces_length (d : List ℚ) (t : ℚ) :
    (compare_faces d t).length = d.length := by
  simp [compare_faces]

theorem compare_faces_get (d : List ℚ) (t : ℚ) (m : Nat) (hm : m < d.length)
    (hm' : m < (compare_faces d t).length) :
    (compare_faces d t).get ⟨m, hm'⟩ = decide (d.get ⟨m, hm⟩ ≤ t) := by
  simp [compare_faces]

theorem compare_faces_any_iff (d : List ℚ) (t : ℚ) :
    (compare_faces d t).any id = true ↔ ∃ x ∈ d, x ≤ t := by
  simp [compare_faces]

theorem compare_faces_any_min {d : List ℚ} (t : ℚ) (hd : d ≠ []) :
    (compare_faces d t).any id = true ↔ pyListMin d ≤ t := by
  rw [compare_faces_any_iff]
  constructor
  · rintro ⟨x, hx, hxt⟩
    exact le_trans (pyListMin_le hx) hxt
  · intro h
    exact ⟨pyListMin d, pyListMin_mem hd, h⟩

theorem matchKeys_length (fl : List Bool) (d : List ℚ) :
    (matchKeys fl d).length = min fl.length d.length := by
  simp [matchKeys]

theorem matchKeys_get (fl : List Bool) (d : List ℚ) (m : Nat)
    (hm1 : m < fl.length) (hm2 : m < d.length) (hm' : m < (matchKeys fl d).length) :
    (matchKeys fl d).get ⟨m, hm'⟩ =
      if fl.get ⟨m, hm1⟩ then (d.get ⟨m, hm2⟩ : WithTop ℚ) else ⊤ := by
  simp [matchKeys]

theorem selectMatches_sub (d : List ℚ) :
    ∃ t : ℚ, t ≤ 7/10 ∧ selectMatches d = compare_faces d t := by
  simp only [selectMatches]
  by_cases h1 : (compare_faces d (6/10)).any id = false ∧ pyListMin d ≤ 65/100
  · rw [if_pos h1]
    by_cases h2 : (compare_faces d (65/100)).any id = false ∧ pyListMin d ≤ 7/10
    · rw [if_pos h2]; exact ⟨7/10, le_refl _, rfl⟩
    · rw [if_neg h2]; exact ⟨65/100, by norm_num, rfl⟩
  · rw [if_neg h1]
    by_cases h2 : (compare_faces d (6/10)).any id = false ∧ pyListMin d ≤ 7/10
    · rw [if_pos h2]; exact ⟨7/10, le_refl _, rfl⟩
    · rw [if_neg h2]; exact ⟨6/10, by norm_num, rfl⟩

theorem selectMatches_length (d : List ℚ) :
    (selectMatches d).length = d.length := by
  obtain ⟨t, _, h⟩ := selectMatches_sub d
  rw [h, compare_faces_length]

theorem selectMatches_eq_06 {d : List ℚ} (hd : d ≠ []) (h : pyListMin d ≤ 6/10) :
    selectMatches d = compare_faces d (6/10) := by
  have h0 : (compare_faces d (6/10)).any id = true := (compare_faces_any_min _ hd).mpr h
  simp only [selectMatches]
  have hm1 :
      (if (compare_faces d (6/10)).any id = false ∧ pyListMin d ≤ 65/100 then
        compare_faces d (65/100) else compare_faces d (6/10)) = compare_faces d (6/10) :=
    if_neg (by simp [h0])
  rw [hm1, if_neg (by simp [h0])]

theorem selectMatches_eq_065 {d : List ℚ} (hd : d ≠ [])
    (h1 : ¬(pyListMin d ≤ 6/10)) (h2 : pyListMin d ≤ 65/100) :
    selectMatches d = compare_faces d (65/100) := by
  have h0 : (compare_faces d (6/10)).any id = false :=
    Bool.eq_false_iff.mpr (fun hh => h1 ((compare_faces_any_min _ hd).mp hh))
  have h65 : (compare_faces d (65/100)).any id = true := (compare_faces_any_min _ hd).mpr h2
  simp only [selectMatches]
  have hm1 :
      (if (compare_faces d (6/10)).any id = false ∧ pyListMin d ≤ 65/100 then
        compare_faces d (65/100) else compare_faces d (6/10)) = compare_faces d (65/100) :=
    if_pos ⟨h0, h2⟩
  rw [hm1, if_neg (by simp [h65])]

theorem selectMatches_eq_07 {d : List ℚ} (hd : d ≠ [])
    (h2 : ¬(pyListMin d ≤ 65/100)) (h3 : pyListMin d ≤ 7/10) :
    selectMatches d = compare_faces d (7/10) := by
  have h1 : ¬(pyListMin d ≤ 6/10) := fun hh => h2 (le_trans hh (by norm_num))
  have h0 : (compare_faces d (6/10)).any id = false :=
    Bool.eq_false_iff.mpr (fun hh => h1 ((compare_faces_any_min _ hd).mp hh))
  simp only [selectMatches]
  have hm1 :
      (if (compare_faces d (6/10)).any id = false ∧ pyListMin d ≤ 65/100 then
        compare_faces d (65/100) else compare_faces d (6/10)) = compare_faces d (6/10) :=
    if_neg (fun hc => h2 hc.2)
  rw [hm1, if_pos ⟨h0, h3⟩]

theorem selectMatches_any_false {d : List ℚ} (hd : d ≠ [])
    (h : ¬(pyListMin d ≤ 7/10)) : (selectMatches d).any id = false := by
  have h2 : ¬(pyListMin d ≤ 65/100) := fun hh => h (le_trans hh (by norm_num))
  have h0 : (compare_faces d (6/10)).any id = false :=
    Bool.eq_false_iff.mpr
      (fun hh => h (le_trans ((compare_faces_any_min _ hd).mp hh) (by norm_num)))
  simp only [selectMatches]
  have hm1 :
      (if (compare_faces d (6/10)).any id = false ∧ pyListMin d ≤ 65/100 then
        compare_faces d (65/100) else compare_faces d (6/10)) = compare_faces d (6/10) :=
    if_neg (fun hc => h2 hc.2)
  rw [hm1, if_neg (fun hc => h hc.2)]
  exact h0

/-! ## The fixed-tolerance selection: specification and monotonicity -/

theorem selSpec_unique {d : List ℚ} {t : ℚ} {j k : Nat}
    (hj : SelSpec d t j) (hk : SelSpec d t k) : j = k := by
  obtain ⟨hjl, hjt, hjmin, hjstrict⟩ := hj
  obtain ⟨hkl, hkt, hkmin, hkstrict⟩ := hk
  rcases lt_trichotomy j k with h | h | h
  · exact absurd (hjmin k hkl hkt) (not_le_of_lt (hkstrict j h hjl hjt))
  · exact h
  · exact absurd (hkmin j hjl hjt) (not_le_of_lt (hjstrict k h hkl hkt))

theorem selSpec_mono {d : List ℚ} {t t' : ℚ} (htt : t ≤ t') {j : Nat}
    (h : SelSpec d t j) : SelSpec d t' j := by
  obtain ⟨hjl, hjt, hjmin, hjstrict⟩ := h
  refine ⟨hjl, le_trans hjt htt, ?_, ?_⟩
  · intro m hm hmt
    by_cases hmt' : d.get ⟨m, hm⟩ ≤ t
    · exact hjmin m hm hmt'
    · exact le_of_lt (lt_of_le_of_lt hjt (lt_of_not_le hmt'))
  · intro m hmj hm hmt
    by_cases hmt' : d.get ⟨m, hm⟩ ≤ t
    · exact hjstrict m hmj hm hmt'
    · exact lt_of_le_of_lt hjt (lt_of_not_le hmt')

theorem bestFlagged_spec (fl : List Bool) (d : List ℚ) (hlen : fl.length = d.length)
    {m0 : Nat} (hm0l : m0 < fl.length) (hm0 : fl.get ⟨m0, hm0l⟩ = true) :
    ∃ hj : pyArgmin (matchKeys fl d) < d.length,
      (∃ hjf : pyArgmin (matchKeys fl d) < fl.length,
        fl.get ⟨pyArgmin (matchKeys fl d), hjf⟩ = true) ∧
      (∀ k (hk : k < d.length) (hkf : k < fl.length), fl.get ⟨k, hkf⟩ = true →
        d.get ⟨pyArgmin (matchKeys fl d), hj⟩ ≤ d.get ⟨k, hk⟩) ∧
      (∀ k, k < pyArgmin (matchKeys fl d) → ∀ (hk : k < d.length) (hkf : k < fl.length),
        fl.get ⟨k, hkf⟩ = true → d.get ⟨pyArgmin (matchKeys fl d), hj⟩ < d.get ⟨k, hk⟩) := by
  have hKlen : (matchKeys fl d).length = d.length := by
    rw [matchKeys_length, hlen, min_self]
  have hm0d : m0 < d.length := hlen ▸ hm0l
  have hKne : matchKeys fl d ≠ [] := by
    intro hnil
    rw [hnil] at hKlen
    simp only [List.length_nil] at hKlen
    omega
  obtain ⟨hjK, hmin, hstrict⟩ := pyArgmin_spec hKne
  have hjd : pyArgmin (matchKeys fl d) < d.length := hKlen ▸ hjK
  have hjf : pyArgmin (matchKeys fl d) < fl.length := hlen ▸ hjd
  have hm0K : m0 < (matchKeys fl d).length := hKlen ▸ hm0d
  have hKm0 : (matchKeys fl d).get ⟨m0, hm0K⟩ = (d.get ⟨m0, hm0d⟩ : WithTop ℚ) := by
    rw [matchKeys_get fl d m0 hm0l hm0d hm0K, hm0]
    simp
  have hKj_le :
      (matchKeys fl d).get ⟨pyArgmin (matchKeys fl d), hjK⟩ ≤ (d.get ⟨m0, hm0d⟩ : WithTop ℚ) :=
    hKm0 ▸ hmin m0 hm0K
  have hflj : fl.get ⟨pyArgmin (matchKeys fl d), hjf⟩ = true := by
    by_contra hfl
    rw [Bool.not_eq_true] at hfl
    have htop : (matchKeys fl d).get ⟨pyArgmin (matchKeys fl d), hjK⟩ = ⊤ := by
      rw [matchKeys_get fl d _ hjf hjd hjK, hfl]
      simp
    rw [htop] at hKj_le
    exact absurd (top_le_iff.mp hKj_le) WithTop.coe_ne_top
  have hKjval :
      (matchKeys fl d).get ⟨pyArgmin (matchKeys fl d), hjK⟩ =
        (d.get ⟨pyArgmin (matchKeys fl d), hjd⟩ : WithTop ℚ) := by
    rw [matchKeys_get fl d _ hjf hjd hjK, hflj]
    simp
  refine ⟨hjd, ⟨hjf, hflj⟩, ?_, ?_⟩
  · intro k hk hkf hfk
    have hkK : k < (matchKeys fl d).length := hKlen ▸ hk
    have hKk : (matchKeys fl d).get ⟨k, hkK⟩ = (d.get ⟨k, hk⟩ : WithTop ℚ) := by
      rw [matchKeys_get fl d k hkf hk hkK, hfk]
      simp
    have hle := hmin k hkK
    rw [hKjval, hKk] at hle
    exact_mod_cast hle
  · intro k hkj hk hkf hfk
    have hkK : k < (matchKeys fl d).length := hKlen ▸ hk
    have hKk : (matchKeys fl d).get ⟨k, hkK⟩ = (d.get ⟨k, hk⟩ : WithTop ℚ) := by
      rw [matchKeys_get fl d k hkf hk hkK, hfk]
      simp
    have hlt := hstrict k hkj hkK
    rw [hKjval, hKk] at hlt
    exact_mod_cast hlt

theorem matchAt_some_spec {d : List ℚ} {t : ℚ} {j : Nat}
    (h : matchAtTolerance d t = some j) : SelSpec d t j := by
  by_cases hany : (compare_faces d t).any id = true
  · simp only [matchAtTolerance] at h
    rw [if_pos hany] at h
    by_cases hcount : 1 < ((compare_faces d t).filter (fun b => b)).length
    · rw [if_pos hcount] at h
      have hj : pyArgmin (matchKeys (compare_faces d t) d) = j := Option.some_inj.mp h
      subst hj
      obtain ⟨x, hx, hxt⟩ := (compare_faces_any_iff d t).mp hany
      obtain ⟨⟨n, hn⟩, hnx⟩ := List.mem_iff_get.mp hx
      have hnf : n < (compare_faces d t).length := (compare_faces_length d t).symm ▸ hn
      have hflag : (compare_faces d t).get ⟨n, hnf⟩ = true := by
        rw [compare_faces_get d t n hn hnf, hnx]
        exact decide_eq_true hxt
      obtain ⟨hjd, ⟨hjf, hflj⟩, hmin, hstrict⟩ :=
        bestFlagged_spec (compare_faces d t) d (compare_faces_length d t) hnf hflag
      refine ⟨hjd, ?_, ?_, ?_⟩
      · have hg := compare_faces_get d t _ hjd hjf
        rw [hflj] at hg
        exact of_decide_eq_true hg.symm
      · intro m hm hmt
        have hmf : m < (compare_faces d t).length := (compare_faces_length d t).symm ▸ hm
        refine hmin m hm hmf ?_
        rw [compare_faces_get d t m hm hmf]
        exact decide_eq_true hmt
      · intro m hmj hm hmt
        have hmf : m < (compare_faces d t).length := (compare_faces_length d t).symm ▸ hm
        refine hstrict m hmj hm hmf ?_
        rw [compare_faces_get d t m hm hmf]
        exact decide_eq_true hmt
    · rw [if_neg hcount] at h
      have hj : pyIndexTrue (compare_faces d t) = j := Option.some_inj.mp h
      subst hj
      obtain ⟨hlt, hget, hbefore⟩ := pyIndexTrue_spec _ hany
      have hjd : pyIndexTrue (compare_faces d t) < d.length :=
        (compare_faces_length d t) ▸ hlt
      refine ⟨hjd, ?_, ?_, ?_⟩
      · have hg := compare_faces_get d t _ hjd hlt
        rw [hget] at hg
        exact of_decide_eq_true hg.symm
      · intro m hm hmt
        have hmf : m < (compare_faces d t).length := (compare_faces_length d t).symm ▸ hm
        have hgm : (compare_faces d t).get ⟨m, hmf⟩ = true := by
          rw [compare_faces_get d t m hm hmf]
          exact decide_eq_true hmt
        have hmj : m = pyIndexTrue (compare_faces d t) :=
          true_unique_of_filter_le_one _ (le_of_not_lt hcount) m _ hmf hlt hgm hget
        subst hmj
        exact le_refl _
      · intro m hmj hm hmt
        have hmf : m < (compare_faces d t).length := (compare_faces_length d t).symm ▸ hm
        have hgm : (compare_faces d t).get ⟨m, hmf⟩ = true := by
          rw [compare_faces_get d t m hm hmf]
          exact decide_eq_true hmt
        have hfalse := hbefore m hmj hmf
        rw [hgm] at hfalse
        exact absurd hfalse (by simp)
  · simp only [matchAtTolerance] at h
    rw [if_neg hany] at h
    exact absurd h (by simp)

theorem matchAt_of_selSpec {d : List ℚ} {t : ℚ} {j : Nat} (h : SelSpec d t j) :
    matchAtTolerance d t = some j := by
  obtain ⟨hjl, hjt, _, _⟩ := id h
  have hany : (compare_faces d t).any id = true :=
    (compare_faces_any_iff d t).mpr ⟨d.get ⟨j, hjl⟩, d.get_mem j hjl, hjt⟩
  have hsome : ∃ i, matchAtTolerance d t = some i := by
    simp only [matchAtTolerance]
    rw [if_pos hany]
    by_cases hcount : 1 < ((compare_faces d t).filter (fun b => b)).length
    · rw [if_pos hcount]; exact ⟨_, rfl⟩
    · rw [if_neg hcount]; exact ⟨_, rfl⟩
  obtain ⟨i, hi⟩ := hsome
  have hij : i = j := selSpec_unique (matchAt_some_spec hi) h
  rw [hij] at hi
  exact hi

theorem matchAtTolerance_mono {d : List ℚ} {t t' : ℚ} (htt : t ≤ t') {i : Nat}
    (h : matchAtTolerance d t = some i) : matchAtTolerance d t' = some i :=
  matchAt_of_selSpec (selSpec_mono htt (matchAt_some_spec h))

theorem length_ne_zero_of_ne_nil {d : List ℚ} (hd : d ≠ []) : ¬(d.length = 0) :=
  fun h0 => hd (List.length_eq_zero.mp h0)

theorem matchDistances_noMatch {d : List ℚ} (hd : d ≠ []) (h : 7/10 < pyListMin d) :
    matchDistances d = MatchResult.noMatch ((1 - pyListMin d) * 100) := by
  have hanyf : (selectMatches d).any id = false := selectMatches_any_false hd (not_le_of_lt h)
  simp only [matchDistances]
  rw [if_neg (length_ne_zero_of_ne_nil hd), if_neg (by simp [hanyf]), if_pos h]

/-- C1: the matcher accepts some enrolled identity exactly when the minimum
distance to the gallery is ≤ 0.7; the flags actually used come from the
layered relaxation (0.6, then 0.65 when `min ≤ 0.65`, then 0.7 when
`min ≤ 0.7`); and when no flag is set and `min > 0.7` the result is the
"no match" response with similarity `(1 - min_distance) * 100`. -/
theorem matcher_layered (distances : List ℚ) (hd : distances ≠ []) :
    ((∃ i, matchDistances distances = MatchResult.accept i) ↔ pyListMin distances ≤ 7/10) ∧
    (7/10 < pyListMin distances →
      matchDistances distances = MatchResult.noMatch ((1 - pyListMin distances) * 100)) ∧
    (pyListMin distances ≤ 6/10 →
      selectMatches distances = compare_faces distances (6/10)) ∧
    (6/10 < pyListMin distances → pyListMin distances ≤ 65/100 →
      selectMatches distances = compare_faces distances (65/100)) ∧
    (65/100 < pyListMin distances → pyListMin distances ≤ 7/10 →
      selectMatches distances = compare_faces distances (7/10)) := by
  refine ⟨⟨?_, ?_⟩, fun h => matchDistances_noMatch hd h,
    fun h => selectMatches_eq_06 hd h,
    fun h1 h2 => selectMatches_eq_065 hd (not_le_of_lt h1) h2,
    fun h1 h2 => selectMatches_eq_07 hd (not_le_of_lt h1) h2⟩
  · rintro ⟨i, hi⟩
    by_contra hmin
    rw [matchDistances_noMatch hd (lt_of_not_le hmin)] at hi
    exact MatchResult.noConfusion hi
  · intro hmin
    by_cases hany : (selectMatches distances).any id = true
    · by_cases hcount : 1 < ((selectMatches distances).filter (fun b => b)).length
      · exact ⟨_, by
          simp only [matchDistances]
          rw [if_neg (length_ne_zero_of_ne_nil hd), if_pos hany, if_pos hcount]⟩
      · exact ⟨_, by
          simp only [matchDistances]
          rw [if_neg (length_ne_zero_of_ne_nil hd), if_pos hany, if_neg hcount]⟩
    · refine ⟨pyArgmin distances, ?_⟩
      simp only [matchDistances]
      rw [if_neg (length_ne_zero_of_ne_nil hd), if_neg hany, if_neg (not_lt_of_le hmin)]

/-- C1 witness: on `[0.8, 0.5]` the layered flags are the tolerance-0.6
flags, and on `[0.8, 0.9]` the result is "no match" with the similarity
formula. -/
theorem matcher_layered_witness :
    selectMatches [(4:ℚ)/5, 1/2] = compare_faces [(4:ℚ)/5, 1/2] (6/10) ∧
    matchDistances [(4:ℚ)/5, 9/10] =
      MatchResult.noMatch ((1 - pyListMin [(4:ℚ)/5, 9/10]) * 100) :=
  ⟨(matcher_layered [(4:ℚ)/5, 1/2] (by decide)).2.2.1 (by decide),
   (matcher_layered [(4:ℚ)/5, 9/10] (by decide)).2.1 (by decide)⟩

/-- C2: with more than one flag set at the tolerance finally used, the
matcher accepts a flagged index of minimal distance, and among equal
minimal flagged distances the lowest index; determinism is definitional
(`matchDistances` is a pure function of its input). -/
theorem matcher_ambiguous (distances : List ℚ)
    (hm : 1 < ((selectMatches distances).filter (fun b => b)).length) :
    ∃ j, ∃ hj : j < distances.length,
      matchDistances distances = MatchResult.accept j ∧
      (∃ hjf : j < (selectMatches distances).length,
        (selectMatches distances).get ⟨j, hjf⟩ = true) ∧
      (∀ k (hk : k < distances.length) (hkf : k < (selectMatches distances).length),
        (selectMatches distances).get ⟨k, hkf⟩ = true →
        distances.get ⟨j, hj⟩ ≤ distances.get ⟨k, hk⟩) ∧
      (∀ k (hk : k < distances.length) (hkf : k < (selectMatches distances).length),
        (selectMatches distances).get ⟨k, hkf⟩ = true →
        distances.get ⟨k, hk⟩ = distances.get ⟨j, hj⟩ → j ≤ k) := by
  have hd : distances ≠ [] := by
    intro hnil
    subst hnil
    rw [show selectMatches [] = [] from by decide] at hm
    simp at hm
  have hany : (selectMatches distances).any id = true :=
    any_of_filter_pos _ (lt_trans Nat.zero_lt_one hm)
  have hacc : matchDistances distances =
      MatchResult.accept (pyArgmin (matchKeys (selectMatches distances) distances)) := by
    simp only [matchDistances]
    rw [if_neg (length_ne_zero_of_ne_nil hd), if_pos hany, if_pos hm]
  obtain ⟨hlt0, hget0, _⟩ := pyIndexTrue_spec _ hany
  obtain ⟨hjd, ⟨hjf, hflj⟩, hmin, hstrict⟩ :=
    bestFlagged_spec (selectMatches distances) distances (selectMatches_length distances)
      hlt0 hget0
  refine ⟨pyArgmin (matchKeys (selectMatches distances) distances), hjd, hacc,
    ⟨hjf, hflj⟩, hmin, ?_⟩
  intro k hk hkf hfk heq
  by_contra hjk
  have hkj : k < pyArgmin (matchKeys (selectMatches distances) distances) :=
    Nat.lt_of_not_le (fun hle => hjk (le_of_eq_of_le rfl hle) )
  have hlt := hstrict k hkj hk hkf hfk
  rw [heq] at hlt
  exact absurd hlt (lt_irrefl _)

/-- C2 witness: on `[0.5, 0.55]` both gallery entries are flagged at 0.6 and
the matcher deterministically returns index 0, the flagged entry of smaller
distance. -/
theorem matcher_ambiguous_witness :
    1 < ((selectMatches [(1:ℚ)/2, 11/20]).filter (fun b => b)).length ∧
    matchDistances [(1:ℚ)/2, 11/20] = MatchResult.accept 0 := by
  obtain ⟨j, hj, hacc, hflag, hmin, htie⟩ := matcher_ambiguous [(1:ℚ)/2, 11/20] (by decide)
  exact ⟨by decide, by decide⟩

/-- C3: an identity accepted when the match flags are computed at tolerance
0.6 is also the one accepted when they are computed at 0.65 and at 0.7, and
is the identity the layered matcher itself accepts. -/
theorem threshold_monotonicity (d : List ℚ) (i : Nat)
    (h : matchAtTolerance d (6/10) = some i) :
    matchAtTolerance d (65/100) = some i ∧ matchAtTolerance d (7/10) = some i ∧
    matchDistances d = MatchResult.accept i := by
  refine ⟨matchAtTolerance_mono (by norm_num) h, matchAtTolerance_mono (by norm_num) h, ?_⟩
  obtain ⟨hil, hit, _, _⟩ := matchAt_some_spec h
  have hd : d ≠ [] := by
    intro hnil
    subst hnil
    exact absurd hil (by simp)
  have hmin : pyListMin d ≤ 6/10 := le_trans (pyListMin_le (d.get_mem i hil)) hit
  have hsel : selectMatches d = compare_faces d (6/10) := selectMatches_eq_06 hd hmin
  simp only [matchAtTolerance] at h
  simp only [matchDistances]
  rw [if_neg (length_ne_zero_of_ne_nil hd), hsel]
  by_cases hany : (compare_faces d (6/10)).any id = true
  · rw [if_pos hany] at h ⊢
    by_cases hcount : 1 < ((compare_faces d (6/10)).filter (fun b => b)).length
    · rw [if_pos hcount] at h ⊢
      rw [Option.some_inj.mp h]
    · rw [if_neg hcount] at h ⊢
      rw [Option.some_inj.mp h]
  · rw [if_neg hany] at h
    exact absurd h (by simp)

/-- C3 witness: on `[0.6, 0.5]`, tolerance 0.6 flags both entries and
selects index 1; tolerances 0.65 and 0.7 and the layered matcher select the
same index. -/
theorem threshold_monotonicity_witness :
    matchAtTolerance [(3:ℚ)/5, 1/2] (65/100) = some 1 ∧
    matchAtTolerance [(3:ℚ)/5, 1/2] (7/10) = some 1 ∧
    matchDistances [(3:ℚ)/5, 1/2] = MatchResult.accept 1 :=
  threshold_monotonicity [(3:ℚ)/5, 1/2] 1 (by decide)

/-! ## The gallery cache (C4) -/

/-- C4 counterexample: starting from the initial cache state with an *empty*
persistent store, two `get_cached_or_load_faces` calls 1 second apart (far
inside the 300 s TTL window, no enrollment change) read the store twice —
the empty load is never cached, so the claimed "exactly once in total"
fails. -/
theorem face_cache_ttl_cex :
    (get_cached_or_load_faces ⟨[], [], 0⟩ 0 ([], [])).store_reads +
      (get_cached_or_load_faces
        (get_cached_or_load_faces ⟨[], [], 0⟩ 0 ([], [])).state 1 ([], [])).store_reads = 2 ∧
    ¬((get_cached_or_load_faces ⟨[], [], 0⟩ 0 ([], [])).store_reads +
      (get_cached_or_load_faces
        (get_cached_or_load_faces ⟨[], [], 0⟩ 0 ([], [])).state 1 ([], [])).store_reads = 1) := by
  exact ⟨by decide, by decide⟩

/-- C4 amended: when the first call misses the cache and the store holds a
*non-empty* gallery, a second call within the TTL returns the same entries
with exactly one store read in total; a call whose cache age reached the TTL
reloads exactly once, and so does the call after `clear_face_cache`. -/
theorem face_cache_ttl (c : FaceCache) (store : List Nat × List (List ℚ)) (t1 t2 : ℚ)
    (hmiss : get_cached_faces c t1 = none)
    (hids : store.1 ≠ []) (hencs : store.2 ≠ [])
    (httl : t2 < t1 + 300) :
    ((get_cached_or_load_faces c t1 store).store_reads +
      (get_cached_or_load_faces (get_cached_or_load_faces c t1 store).state t2 store).store_reads
        = 1 ∧
      (get_cached_or_load_faces (get_cached_or_load_faces c t1 store).state t2 store).result =
        (get_cached_or_load_faces c t1 store).result) ∧
    (300 ≤ t2 - c.last_updated → (get_cached_or_load_faces c t2 store).store_reads = 1) ∧
    (get_cached_or_load_faces clear_face_cache t2 store).store_reads = 1 := by
  have ho1 : get_cached_or_load_faces c t1 store =
      ⟨store, update_face_cache store.1 store.2 t1, 1⟩ := by
    simp only [get_cached_or_load_faces, hmiss]
    rw [if_pos ⟨hids, hencs⟩]
  have hhit : get_cached_faces (update_face_cache store.1 store.2 t1) t2 =
      some (store.1, store.2) := by
    simp only [get_cached_faces, update_face_cache, CACHE_TTL]
    rw [if_pos ⟨by linarith, List.length_pos.mpr hencs⟩]
  refine ⟨?_, ?_, ?_⟩
  · rw [ho1]
    simp only [get_cached_or_load_faces, hhit]
    exact ⟨trivial, trivial⟩
  · intro hexp
    have hnone : get_cached_faces c t2 = none := by
      simp only [get_cached_faces, CACHE_TTL]
      rw [if_neg (fun hcon => absurd hcon.1 (not_lt_of_le hexp))]
    simp only [get_cached_or_load_faces, hnone]
  · have hnone : get_cached_faces clear_face_cache t2 = none := by
      simp only [get_cached_faces, clear_face_cache, CACHE_TTL]
      rw [if_neg (fun hcon => absurd hcon.2 (by simp))]
    simp only [get_cached_or_load_faces, hnone]

/-- C4 amended witness: a concrete miss-then-hit run with a one-entry store
(one read, identical entries), plus an expired call. -/
theorem face_cache_ttl_witness :
    ((get_cached_or_load_faces ⟨[], [], 0⟩ 1000 ([5], [[1]])).store_reads +
      (get_cached_or_load_faces (get_cached_or_load_faces ⟨[], [], 0⟩ 1000 ([5], [[1]])).state
        1100 ([5], [[1]])).store_reads = 1 ∧
      (get_cached_or_load_faces (get_cached_or_load_faces ⟨[], [], 0⟩ 1000 ([5], [[1]])).state
        1100 ([5], [[1]])).result = (get_cached_or_load_faces ⟨[], [], 0⟩ 1000 ([5], [[1]])).result) ∧
    (get_cached_or_load_faces ⟨[], [], 0⟩ 400 ([5], [[1]])).store_reads = 1 := by
  have h := face_cache_ttl ⟨[], [], 0⟩ ([5], [[1]]) 1000 1100
    (by decide) (by decide) (by decide) (by decide)
  have h2 := face_cache_ttl ⟨[], [], 0⟩ ([5], [[1]]) 400 400
    (by decide) (by decide) (by decide) (by decide)
  exact ⟨h.1, h2.2.1 (by decide)⟩

/-! ## Gallery loading (C5) -/

theorem load_one_length {blob : List Nat} {enc : List F32}
    (h : load_one blob = some enc) : enc.length = 128 := by
  simp only [load_one] at h
  cases hd : decode_blob blob with
  | none => rw [hd] at h; exact absurd h (by simp)
  | some e =>
    rw [hd] at h
    have h' : (if e.length ≠ 128 then none else some e) = some enc := h
    by_cases hl : e.length ≠ 128
    · rw [if_pos hl] at h'; exact absurd h' (by simp)
    · rw [if_neg hl] at h'
      push_neg at hl
      rw [← Option.some_inj.mp h']
      exact hl

/-- C5: a 512-byte blob is decoded as float32, a 1024-byte blob as float64
downcast to float32 (both with exactly 128 elements); an empty blob or one
whose byte length fits neither width is skipped without aborting the rest of
the load; and every returned descriptor has exactly 128 float32 elements. -/
theorem load_known_faces_decoding :
    ∀ (eid : Nat) (blob : List Nat) (rest rows : List (Nat × List Nat)),
      (blob.length = 512 →
        load_known_faces ((eid, blob) :: rest) =
          (eid :: (load_known_faces rest).1, frombuffer_f32 blob :: (load_known_faces rest).2) ∧
        (frombuffer_f32 blob).length = 128) ∧
      (blob.length = 1024 →
        load_known_faces ((eid, blob) :: rest) =
          (eid :: (load_known_faces rest).1,
            frombuffer_f64_to_f32 blob :: (load_known_faces rest).2) ∧
        (frombuffer_f64_to_f32 blob).length = 128) ∧
      (blob = [] ∨ (blob.length ≠ 512 ∧ blob.length ≠ 1024) →
        load_known_faces ((eid, blob) :: rest) = load_known_faces rest) ∧
      (∀ enc ∈ (load_known_faces rows).2, enc.length = 128) := by
  intro eid blob rest rows
  refine ⟨?_, ?_, ?_, ?_⟩
  · intro h512
    have hne : ¬(blob = []) := by intro hnil; rw [hnil] at h512; simp at h512
    have hlen : (frombuffer_f32 blob).length = 128 := by
      simp [frombuffer_f32, h512]
    have hone : load_one blob = some (frombuffer_f32 blob) := by
      have hdec : decode_blob blob = some (frombuffer_f32 blob) := by
        simp only [decode_blob]
        rw [if_neg hne, if_pos h512]
      simp only [load_one, hdec]
      rw [if_neg (by simp [hlen])]
    exact ⟨by simp only [load_known_faces, hone], hlen⟩
  · intro h1024
    have hne : ¬(blob = []) := by intro hnil; rw [hnil] at h1024; simp at h1024
    have hne512 : ¬(blob.length = 512) := by rw [h1024]; decide
    have hlen : (frombuffer_f64_to_f32 blob).length = 128 := by
      simp [frombuffer_f64_to_f32, h1024]
    have hone : load_one blob = some (frombuffer_f64_to_f32 blob) := by
      have hdec : decode_blob blob = some (frombuffer_f64_to_f32 blob) := by
        simp only [decode_blob]
        rw [if_neg hne, if_neg hne512, if_pos h1024]
      simp only [load_one, hdec]
      rw [if_neg (by simp [hlen])]
    exact ⟨by simp only [load_known_faces, hone], hlen⟩
  · intro h
    have hone : load_one blob = none := by
      by_cases hnil : blob = []
      · subst hnil
        rfl
      · rcases h with h | ⟨h512, h1024⟩
        · exact absurd h hnil
        · have hdec : decode_blob blob = none := by
            simp only [decode_blob]
            rw [if_neg hnil, if_neg h512, if_neg h1024,
              if_neg (fun hc : _ ∧ _ => h1024 (by omega)),
              if_neg (fun hc : _ ∧ _ => h512 (by omega))]
          simp only [load_one, hdec]
    simp only [load_known_faces, hone]
  · induction rows with
    | nil => intro enc henc; simp [load_known_faces] at henc
    | cons r rs ih =>
      intro enc henc
      obtain ⟨rid, rblob⟩ := r
      simp only [load_known_faces] at henc
      cases hone : load_one rblob with
      | none =>
        rw [hone] at henc
        exact ih enc henc
      | some e =>
        rw [hone] at henc
        simp only [List.mem_cons] at henc
        rcases henc with he | hm
        · rw [he]; exact load_one_length hone
        · exact ih enc hm

/-- C5 witness: one row holding a 512-byte blob loads as a 128-element
float32 descriptor. -/
theorem load_known_faces_decoding_witness :
    load_known_faces [(7, List.replicate 512 0)] =
      (7 :: (load_known_faces []).1,
        frombuffer_f32 (List.replicate 512 0) :: (load_known_faces []).2) ∧
    (frombuffer_f32 (List.replicate 512 0)).length = 128 :=
  (load_known_faces_decoding 7 (List.replicate 512 0) [] []).1 (List.length_replicate 512 0)

/-! ## The descriptor extractor (C6) -/

/-- C6 counterexample: an undecodable payload produces exactly the same
`None` sentinel as a decodable image with zero detected face regions — the
source's `except Exception: return None` (lines 86-88) collapses the
claimed fatal error into the no-face outcome. -/
theorem encode_error_collapse_cex :
    encode_face_from_base64 undecodableInput = no_face_result ∧
    encode_face_from_base64 noFaceInput = no_face_result :=
  ⟨rfl, rfl⟩

/-- C6 amended: `encode_face_from_base64` never propagates an error — an
undecodable payload is caught and returned as the same `None` sentinel used
when zero face regions are detected. -/
theorem encode_face_from_base64_total (inp : B64Input) :
    (inp.decoded = none → encode_face_from_base64 inp = no_face_result) ∧
    (∀ msg, encode_face_from_base64 inp ≠ Except.error msg) ∧
    (∀ img, inp.decoded = some img → img.hogLocations = [] → img.cnnLocations = [] →
      encode_face_from_base64 inp = no_face_result) := by
  refine ⟨?_, ?_, ?_⟩
  · intro h
    simp [encode_face_from_base64, h]
  · intro msg hcontra
    cases hdec : inp.decoded with
    | none =>
      rw [show encode_face_from_base64 inp = no_face_result from by
        simp [encode_face_from_base64, hdec]] at hcontra
      exact absurd hcontra (by simp [no_face_result])
    | some img =>
      simp only [encode_face_from_base64, hdec] at hcontra
      by_cases hloc :
          (if img.hogLocations.isEmpty then img.cnnLocations else img.hogLocations).isEmpty
      · rw [if_pos hloc] at hcontra
        exact absurd hcontra (by simp [no_face_result])
      · rw [if_neg hloc] at hcontra
        cases henc : img.encodings with
        | nil => rw [henc] at hcontra; exact absurd hcontra (by simp [no_face_result])
        | cons e es => rw [henc] at hcontra; exact absurd hcontra (by simp)
  · intro img hdec hhog hcnn
    simp [encode_face_from_base64, hdec, hhog, hcnn]

/-- C6 amended witness: the undecodable payload maps to the `None`
sentinel. -/
theorem encode_face_from_base64_total_witness :
    encode_face_from_base64 ⟨none⟩ = no_face_result :=
  (encode_face_from_base64_total ⟨none⟩).1 rfl

/-! ## The recognition endpoint and liveness (C9) -/

/-- C9 counterexample: a concrete request on which the endpoint resolves
identity 7 while `detect_liveness` is invoked zero times. -/
theorem recognize_without_liveness_cex :
    recognize_face acceptedRequest = ⟨ApiOutcome.accepted 7, 0⟩ ∧
    ¬(1 ≤ (recognize_face acceptedRequest).livenessCalls) :=
  ⟨by decide, by decide⟩

/-- C9 amended: the recognition endpoint never invokes the liveness
verifier on any path — identities are resolved and recorded with no
liveness verdict. -/
theorem recognize_face_never_liveness (req : RecognizeRequest) :
    (recognize_face req).livenessCalls = 0 := by
  unfold recognize_face
  cases himg : req.image with
  | none => rfl
  | some img =>
    cases henc : encode_face_from_base64 img with
    | error e => simp [henc]
    | ok o =>
      cases o with
      | none => simp [henc]
      | some d =>
        by_cases hg : req.galleryIds.isEmpty
        · simp [henc, hg]
        · cases hm : matchDistances req.distances with
          | accept idx => simp [henc, hg, hm]
          | noMatch s => simp [henc, hg, hm]
          | error => simp [henc, hg, hm]

/-! ## Liveness result shape (C7, C8, C10) -/

theorem npVar_nonneg (l : List ℚ) : 0 ≤ npVar l := by
  unfold npVar npMean
  apply div_nonneg
  · apply List.sum_nonneg
    intro x hx
    obtain ⟨y, _, hy⟩ := List.mem_map.mp hx
    rw [← hy]
    positivity
  · exact Nat.cast_nonneg _

theorem sixVariances_max_nonneg (locs : List Loc) :
    0 ≤ pyListMax (sixVariances locs) := by
  refine le_trans (npVar_nonneg (locs.map Loc.top)) (le_pyListMax ?_)
  simp [sixVariances]

theorem movementGates_cases (locs : List Loc) :
    (∃ r, movementGates locs = ⟨false, 0, r⟩) ∨
    (movementGates locs = ⟨true, min 1 (pyListMax (sixVariances locs) / 4), livenessOkMsg⟩ ∧
      1/25 ≤ pyListMax (sixVariances locs)) := by
  simp only [movementGates]
  by_cases h1 : pyListMax (sixVariances locs) < 1/25
  · rw [if_pos h1]; exact Or.inl ⟨noMovementMsg, rfl⟩
  · rw [if_neg h1]
    by_cases h2 : stdSub_lt (pyListMax (sixVariances locs)) (pyListMin (sixVariances locs))
        (1/20) = true
    · rw [if_pos h2]; exact Or.inl ⟨uniformMovementMsg, rfl⟩
    · rw [if_neg h2]
      by_cases h3 : 2 ≤ (frameMovements locs).length ∧ npVar (frameMovements locs) < 1/10
      · rw [if_pos h3]; exact Or.inl ⟨uniformMovementMsg, rfl⟩
      · rw [if_neg h3]
        by_cases h4 : 2 ≤ (frameMovements locs).length ∧ npMean (frameMovements locs) < 1/2
        · rw [if_pos h4]; exact Or.inl ⟨insufficientMovementMsg, rfl⟩
        · rw [if_neg h4]
          by_cases h5 :
              npVar (locs.map (fun l => (l.bottom - l.top) * (l.right - l.left))) < 1
          · rw [if_pos h5]; exact Or.inl ⟨tooConsistentMsg, rfl⟩
          · rw [if_neg h5]
            by_cases h6 :
                pyListMax (locs.map (fun l => (l.bottom - l.top) * (l.right - l.left))) -
                  pyListMin (locs.map (fun l => (l.bottom - l.top) * (l.right - l.left))) < 1/2
            · rw [if_pos h6]; exact Or.inl ⟨sizeConsistentMsg, rfl⟩
            · rw [if_neg h6]
              by_cases h7 : 4 ≤ locs.length ∧ 2 ≤ (frameMovements locs).length ∧
                  npVar (consecPairs (fun a b => b - a) (frameMovements locs)) < 1/10
              · rw [if_pos h7]; exact Or.inl ⟨artificialMovementMsg, rfl⟩
              · rw [if_neg h7]
                exact Or.inr ⟨rfl, le_of_not_lt h1⟩

theorem locationPhase_cases (frames : List Frame) :
    (∃ r, locationPhase frames = ⟨false, 0, r⟩) ∨
    (locationPhase frames = ⟨true, min 1 (maxPosVariance frames / 4), livenessOkMsg⟩ ∧
      1/25 ≤ maxPosVariance frames) := by
  cases hcl : collectLocs frames 0 [] with
  | error i =>
    have hred : locationPhase frames = ⟨false, 0, frameMissMsg i⟩ := by
      simp only [locationPhase]
      rw [hcl]
    exact Or.inl ⟨frameMissMsg i, hred⟩
  | ok locs =>
    have hmv : maxPosVariance frames = pyListMax (sixVariances locs) := by
      simp only [maxPosVariance]
      rw [hcl]
    by_cases h3 : locs.length < 3
    · have hred : locationPhase frames =
          ⟨false, 0, notEnoughFramesMsg locs.length frames.length⟩ := by
        simp only [locationPhase]
        rw [hcl]
        exact if_pos h3
      exact Or.inl ⟨notEnoughFramesMsg locs.length frames.length, hred⟩
    · have hred : locationPhase frames = movementGates locs := by
        simp only [locationPhase]
        rw [hcl]
        exact if_neg h3
      rw [hred, hmv]
      exact movementGates_cases locs

theorem detect_liveness_cases (frames : List Frame) :
    (∃ r, detect_liveness frames = ⟨false, 0, r⟩) ∨
    (detect_liveness frames = ⟨true, min 1 (maxPosVariance frames / 4), livenessOkMsg⟩ ∧
      1/25 ≤ maxPosVariance frames) := by
  by_cases hlen : frames.length < 5
  · exact Or.inl ⟨needFramesMsg, by simp [detect_liveness, hlen]⟩
  · simp only [detect_liveness]
    rw [if_neg hlen]
    cases hpp : (match decodeAll frames with
        | none => PhaseOut.error
        | some imgs => pixelPhase imgs) with
    | fail r => exact Or.inl ⟨r, rfl⟩
    | pass => exact locationPhase_cases frames
    | error => exact locationPhase_cases frames

/-- C7: the face-detectability gate evaluated at a burst that passes the
pixel gates and has a face detected in 4 of the 5 frames (all but frame 1):
the check nevertheless rejects, with the frame-1-specific message rather
than the count-specific one, because the in-loop early exit fires whenever
a miss occurs before 3 boxes have been collected. -/
theorem detect_liveness_early_miss :
    detect_liveness missFirstFrames = ⟨false, 0, frameMissMsg 1⟩ ∧
    (missFirstFrames.filterMap Frame.location).length = 4 ∧
    (decodeAll missFirstFrames).map pixelPhase = some PhaseOut.pass :=
  ⟨by decide, by decide, by decide⟩

/-- C8: fewer than 5 frames fail immediately with the frame-count message
independently of content; every failing path returns confidence 0; and a
passing run returns the success message with squared confidence
`min 1 (max_variance/4)` — the square of `min(1.0, max_std/2.0)` — lying in
`[0, 1]`. -/
theorem detect_liveness_shape (frames : List Frame) :
    (frames.length < 5 → detect_liveness frames = ⟨false, 0, needFramesMsg⟩) ∧
    ((detect_liveness frames).is_live = false → (detect_liveness frames).confSq = 0) ∧
    ((detect_liveness frames).is_live = true →
      (detect_liveness frames).reason = livenessOkMsg ∧
      (detect_liveness frames).confSq = min 1 (maxPosVariance frames / 4) ∧
      0 ≤ (detect_liveness frames).confSq ∧ (detect_liveness frames).confSq ≤ 1) := by
  refine ⟨fun h => by simp [detect_liveness, h], ?_, ?_⟩
  · intro hfalse
    rcases detect_liveness_cases frames with ⟨r, hr⟩ | ⟨hok, _⟩
    · rw [hr]
    · rw [hok] at hfalse
      exact absurd hfalse (by simp)
  · intro htrue
    rcases detect_liveness_cases frames with ⟨r, hr⟩ | ⟨hok, hge⟩
    · rw [hr] at htrue
      exact absurd htrue (by simp)
    · rw [hok]
      refine ⟨rfl, rfl, le_min (by norm_num) (by linarith), min_le_left _ _⟩

/-- C8 witness: 4 frames fail with the frame-count message; the passing
burst returns the success message and the normalized confidence. -/
theorem detect_liveness_shape_witness :
    detect_liveness fourFrames = ⟨false, 0, needFramesMsg⟩ ∧
    (detect_liveness liveFrames).reason = livenessOkMsg ∧
    (detect_liveness liveFrames).confSq = min 1 (maxPosVariance liveFrames / 4) := by
  have h4 := (detect_liveness_shape fourFrames).1 (by decide)
  have hl := (detect_liveness_shape liveFrames).2.2 (by decide)
  exact ⟨h4, hl.1, hl.2.1⟩

/-- C10: the liveness check is a total function of its input (every
swallowed internal error is an explicit result in the embedding), every
non-live verdict carries confidence 0, and every live verdict carries
confidence at least 0.1 (squared: `1/100`), because the movement gate has
already enforced `max_variance ≥ 0.2` (squared: `1/25`). -/
theorem detect_liveness_total (frames : List Frame) :
    ((detect_liveness frames).is_live = true →
      1/100 ≤ (detect_liveness frames).confSq) ∧
    ((detect_liveness frames).is_live = false →
      (detect_liveness frames).confSq = 0 ∧
      detect_liveness frames =
        ⟨false, (detect_liveness frames).confSq, (detect_liveness frames).reason⟩) := by
  constructor
  · intro htrue
    rcases detect_liveness_cases frames with ⟨r, hr⟩ | ⟨hok, hge⟩
    · rw [hr] at htrue
      exact absurd htrue (by simp)
    · rw [hok]
      exact le_min (by norm_num) (by linarith)
  · intro hfalse
    rcases detect_liveness_cases frames with ⟨r, hr⟩ | ⟨hok, _⟩
    · rw [hr]
      exact ⟨rfl, rfl⟩
    · rw [hok] at hfalse
      exact absurd hfalse (by simp)

/-- C10 witness: the passing burst is live with confidence ≥ 0.1. -/
theorem detect_liveness_total_witness :
    (detect_liveness liveFrames).is_live = true ∧
    1/100 ≤ (detect_liveness liveFrames).confSq :=
  ⟨by decide, (detect_liveness_total liveFrames).1 (by decide)⟩

/-- Justification of the exact rational gate decision: for
`0 ≤ b ≤ a` and `0 < c`, `stdSub_lt a b c` decides precisely the source's
comparison `sqrt a - sqrt b < c` on standard deviations. -/
theorem stdSub_lt_iff (a b c : ℚ) (hb : 0 ≤ b) (hab : b ≤ a) (hc : 0 < c) :
    stdSub_lt a b c = true ↔ Real.sqrt (a : ℝ) - Real.sqrt (b : ℝ) < (c : ℝ) := by
  have ha : (0:ℚ) ≤ a := le_trans hb hab
  have haR : (0:ℝ) ≤ (a : ℝ) := by exact_mod_cast ha
  have hbR : (0:ℝ) ≤ (b : ℝ) := by exact_mod_cast hb
  have hcR : (0:ℝ) < (c : ℝ) := by exact_mod_cast hc
  have hA : 0 ≤ Real.sqrt (a:ℝ) := Real.sqrt_nonneg _
  have hB : 0 ≤ Real.sqrt (b:ℝ) := Real.sqrt_nonneg _
  have hA2 : Real.sqrt (a:ℝ) ^ 2 = (a:ℝ) := Real.sq_sqrt haR
  have hB2 : Real.sqrt (b:ℝ) ^ 2 = (b:ℝ) := Real.sq_sqrt hbR
  have key : (Real.sqrt (a:ℝ) - Real.sqrt (b:ℝ) < (c:ℝ)) ↔
      ((a:ℝ) - (b:ℝ) - (c:ℝ)^2 < 2 * (c:ℝ) * Real.sqrt (b:ℝ)) := by
    constructor
    · intro h
      have h1 : Real.sqrt (a:ℝ) < Real.sqrt (b:ℝ) + (c:ℝ) := by linarith
      nlinarith [hA2, hB2, h1, hA, hB]
    · intro h
      by_contra hcon
      push_neg at hcon
      have h1 : Real.sqrt (b:ℝ) + (c:ℝ) ≤ Real.sqrt (a:ℝ) := by linarith
      nlinarith [hA2, hB2, h1, hA, hB]
  have hdec : stdSub_lt a b c = true ↔
      (a - b - c^2 < 0 ∨ (a - b - c^2)^2 < 4 * c^2 * b) := by
    simp [stdSub_lt]
  rw [hdec, key]
  have h2cB : 0 ≤ 2 * (c:ℝ) * Real.sqrt (b:ℝ) := by positivity
  have h2cB2 : (2 * (c:ℝ) * Real.sqrt (b:ℝ))^2 = 4 * (c:ℝ)^2 * (b:ℝ) := by
    rw [mul_pow, mul_pow, hB2]
    ring
  constructor
  · rintro (h | h)
    · have hR : ((a:ℝ) - b - c^2) < 0 := by exact_mod_cast h
      linarith
    · have hR : ((a:ℝ) - b - c^2)^2 < 4 * (c:ℝ)^2 * b := by exact_mod_cast h
      by_cases ht : ((a:ℝ) - b - c^2) < 0
      · linarith
      · push_neg at ht
        nlinarith [h2cB2, hR, ht, h2cB]
  · intro h
    by_cases ht : (a - b - c^2 : ℚ) < 0
    · exact Or.inl ht
    · right
      push_neg at ht
      have htR : (0:ℝ) ≤ ((a:ℝ) - b - c^2) := by exact_mod_cast ht
      have hsq : ((a:ℝ) - b - c^2)^2 < (2 * (c:ℝ) * Real.sqrt (b:ℝ))^2 := by nlinarith
      rw [h2cB2] at hsq
      exact_mod_cast hsq

end FaceRec
